import Mathlib

/-!
Verification development for two components of the repository:

1. GcPauseTimeInfo (a GC pause-timing value object from a C++ header):
   a record of a pause start time, its duration, and the end time of the
   previous pause, with derived durations.  The C++ fields are of type
   double; the claims about this component only involve addition,
   subtraction, equality and sign tests, all of which are exact in any
   linear ordered field, so the component is embedded generically over a
   linear ordered field (instantiated at the rationals for concrete
   evaluation, since every finite double is a rational number).

2. Inflater (java.util.zip.Inflater): a stateful decompression session
   wrapping an opaque native zlib codec.  The Java-side state (native
   handle address, dual input representations, flags, byte counters) is
   embedded as a structure; each public method becomes a function from the
   state (plus the response of the opaque native codec, where one is
   consulted) to the updated state and an outcome.  Byte contents flow
   only into and out of the opaque native codec, which is external to the
   repository, so buffers are embedded by the data the Java code itself
   inspects: array length, buffer position and limit.
-/

namespace JdkSpec

/-! ## GcPauseTimeInfo -/

/-- State of a GcPauseTimeInfo object: the three double fields of the C++
class, embedded over a linear ordered field. -/
structure GcPauseTimeInfo (R : Type) where
  start_time : R
  duration : R
  end_of_last_pause : R
deriving DecidableEq

/-- Embeds the C++ constructor together with its three assert statements:
construction yields a value only when all three arguments are
non-negative; a negative argument fires an assert, which is fatal to the
caller, embedded as the none case. -/
def GcPauseTimeInfo.construct {R : Type} [LinearOrderedField R]
    (pause_start_time pause_duration end_of_last_pause : R) :
    Option (GcPauseTimeInfo R) :=
  if 0 ≤ pause_start_time ∧ 0 ≤ pause_duration ∧ 0 ≤ end_of_last_pause then
    some ⟨pause_start_time, pause_duration, end_of_last_pause⟩
  else
    none

/-- Embeds set_start_time: stores the value with no validation.  The C++
setter also returns the assigned value; only the state update is
relevant here. -/
def GcPauseTimeInfo.set_start_time {R : Type} (g : GcPauseTimeInfo R)
    (v : R) : GcPauseTimeInfo R :=
  { g with start_time := v }

/-- Embeds set_duration: stores the value with no validation. -/
def GcPauseTimeInfo.set_duration {R : Type} (g : GcPauseTimeInfo R)
    (v : R) : GcPauseTimeInfo R :=
  { g with duration := v }

/-- Embeds set_end_of_last_pause: stores the value with no validation. -/
def GcPauseTimeInfo.set_end_of_last_pause {R : Type} (g : GcPauseTimeInfo R)
    (v : R) : GcPauseTimeInfo R :=
  { g with end_of_last_pause := v }

/-- Embeds preceding_nongc_duration: start_time - end_of_last_pause. -/
def GcPauseTimeInfo.preceding_nongc_duration {R : Type} [LinearOrderedField R]
    (g : GcPauseTimeInfo R) : R :=
  g.start_time - g.end_of_last_pause

/-- Embeds total_duration: preceding_nongc_duration() + duration. -/
def GcPauseTimeInfo.total_duration {R : Type} [LinearOrderedField R]
    (g : GcPauseTimeInfo R) : R :=
  g.preceding_nongc_duration + g.duration

/-- Embeds pause_end_time: start_time + duration. -/
def GcPauseTimeInfo.pause_end_time {R : Type} [LinearOrderedField R]
    (g : GcPauseTimeInfo R) : R :=
  g.start_time + g.duration

/-! ## Inflater -/

/-- View of a java.nio.ByteBuffer as the Inflater code inspects it: its
position, its limit, and whether it is read-only.  The byte contents are
only ever handed to the opaque native codec and are not inspected by the
Java code embedded here. -/
structure ByteBufferView where
  position : Int
  limit : Int
  isReadOnly : Bool := false
deriving DecidableEq

/-- Embeds java.nio.Buffer.remaining(): limit - position, floored at 0. -/
def ByteBufferView.remaining (b : ByteBufferView) : Int :=
  max (b.limit - b.position) 0

/-- Embeds java.nio.Buffer.hasRemaining(): position < limit. -/
def ByteBufferView.hasRemaining (b : ByteBufferView) : Bool :=
  b.position < b.limit

/-- Embeds ZipUtils.defaultBuf, an empty ByteBuffer with position 0 and
limit 0, installed as the input field at construction, on reset and on
end. -/
def defaultBuf : ByteBufferView :=
  { position := 0, limit := 0, isReadOnly := false }

/-- Embeds jdk.internal.util.Preconditions.checkFromIndexSize as a
boolean: true exactly when the check passes (no exception). -/
def fromIndexSizeOk (fromIndex size length : Int) : Bool :=
  decide (0 ≤ length ∧ 0 ≤ fromIndex ∧ 0 ≤ size ∧ size ≤ length - fromIndex)

/-- State of an Inflater object.  address embeds zsRef.address(), which is
non-zero while the native resource is open and 0 after end().  input and
inputArray embed the two nullable input-source fields (a ByteBuffer
reference and a byte array with an active window inputPos..inputLim); an
array is embedded by its list of bytes, of which only the length is ever
inspected on the Java side. -/
structure Inflater where
  address : Int
  input : Option ByteBufferView
  inputArray : Option (List Int)
  inputPos : Int
  inputLim : Int
  finished : Bool
  pendingOutput : Bool
  needDict : Bool
  bytesRead : Int
  bytesWritten : Int
deriving DecidableEq

/-- Embeds the constructor Inflater(nowrap): the native init returns a
fresh non-zero handle (the addr argument; the InflaterZStreamRef
constructor asserts it is non-zero); all other fields start at their
Java field initializers, with input = ZipUtils.defaultBuf. -/
def Inflater.init (addr : Int) : Inflater :=
  { address := addr
    input := some defaultBuf
    inputArray := none
    inputPos := 0
    inputLim := 0
    finished := false
    pendingOutput := false
    needDict := false
    bytesRead := 0
    bytesWritten := 0 }

/-- Outcome of one Inflater method call: a normal return carrying the
returned int (0 for void methods), or one of the exceptions the embedded
code can throw. -/
inductive Outcome where
  | ok (ret : Int)
  | illegalStateException
  | dataFormatException
  | indexOutOfBounds
  | readOnlyBufferException
deriving DecidableEq

/-- Response of one call into the opaque native inflate function: either
the packed 64-bit result long (bits 0..30 input bytes consumed, bits
31..61 output bytes produced, bit 62 finished, bit 63 needs-dictionary),
or a DataFormatException with the two out-parameter fields inputConsumed
and outputConsumed that the JNI code stores before throwing. -/
inductive NativeInflate where
  | ok (result : Nat)
  | dataFormatError (inputConsumed outputConsumed : Int)
deriving DecidableEq

/-- Embeds the unpacking (int) (result and 0x7fffffff). -/
def resultRead (result : Nat) : Int :=
  (result &&& 0x7fffffff : Nat)

/-- Embeds the unpacking (int) (result >>> 31 and 0x7fffffff). -/
def resultWritten (result : Nat) : Int :=
  ((result >>> 31) &&& 0x7fffffff : Nat)

/-- Embeds the test (result >>> 62 and 1) != 0. -/
def resultFinished (result : Nat) : Bool :=
  (result >>> 62) &&& 1 != 0

/-- Embeds the test (result >>> 63 and 1) != 0. -/
def resultNeedDict (result : Nat) : Bool :=
  (result >>> 63) &&& 1 != 0

/-- Embeds setInput(byte[] input, int off, int len): after the bounds
check, installs the array window as the active input source and clears
the buffer reference.  There is no open-state check in the source. -/
def Inflater.setInputArray (st : Inflater) (data : List Int)
    (off len : Int) : Inflater × Outcome :=
  if fromIndexSizeOk off len data.length then
    ({ st with input := none
               inputArray := some data
               inputPos := off
               inputLim := off + len }, .ok 0)
  else
    (st, .indexOutOfBounds)

/-- Embeds setInput(ByteBuffer input): installs the buffer as the active
input source and clears the array reference.  There is no open-state
check in the source. -/
def Inflater.setInputBuffer (st : Inflater) (buf : ByteBufferView) :
    Inflater :=
  { st with input := some buf, inputArray := none }

/-- Embeds setDictionary(byte[] dictionary, int off, int len): bounds
check, then ensureOpen, then the native call (no embedded state), then
needDict = false. -/
def Inflater.setDictionaryArray (st : Inflater) (dict : List Int)
    (off len : Int) : Inflater × Outcome :=
  if fromIndexSizeOk off len dict.length then
    if st.address = 0 then
      (st, .illegalStateException)
    else
      ({ st with needDict := false }, .ok 0)
  else
    (st, .indexOutOfBounds)

/-- Embeds setDictionary(ByteBuffer dictionary): reads position and
remaining, then ensureOpen, then the native call, then advances the
dictionary buffer position to its limit and clears needDict.  Returns
the updated dictionary view alongside the session state. -/
def Inflater.setDictionaryBuffer (st : Inflater) (dict : ByteBufferView) :
    Inflater × ByteBufferView × Outcome :=
  let position := dict.position
  let remaining := max (dict.limit - position) 0
  if st.address = 0 then
    (st, dict, .illegalStateException)
  else
    ({ st with needDict := false },
     { dict with position := position + remaining }, .ok 0)

/-- Embeds getRemaining(): inputLim - inputPos for an array source,
input.remaining() for a buffer source. -/
def Inflater.getRemaining (st : Inflater) : Int :=
  match st.input with
  | none => st.inputLim - st.inputPos
  | some b => b.remaining

/-- Embeds needsInput(): inputLim == inputPos for an array source,
not input.hasRemaining() for a buffer source. -/
def Inflater.needsInput (st : Inflater) : Bool :=
  match st.input with
  | none => st.inputLim == st.inputPos
  | some b => !b.hasRemaining

/-- Embeds needsDictionary(). -/
def Inflater.needsDictionary (st : Inflater) : Bool :=
  st.needDict

/-- Embeds finished(). -/
def Inflater.finishedQ (st : Inflater) : Bool :=
  st.finished

/-- Embeds the package-private hasPendingOutput(). -/
def Inflater.hasPendingOutput (st : Inflater) : Bool :=
  st.pendingOutput

/-- Embeds inflate(byte[] output, int off, int len).  The output array is
embedded by its byte list (only its length is inspected); native is the
response of the opaque native codec for this call.  On a
DataFormatException the active input source position is advanced by
inputConsumed and the two counters by inputConsumed and outputConsumed
before the exception propagates; on success the packed result is
unpacked, finished and needDict are or-ed in, pendingOutput is set to
(written == len and not finished), the input position advances by read
(guarded by read > 0 for a buffer source) and the counters advance. -/
def Inflater.inflateArrayOut (st : Inflater) (output : List Int)
    (off len : Int) (native : NativeInflate) : Inflater × Outcome :=
  if fromIndexSizeOk off len output.length then
    if st.address = 0 then
      (st, .illegalStateException)
    else
      match st.input with
      | none =>
        match native with
        | .dataFormatError c p =>
            ({ st with inputPos := st.inputPos + c
                       bytesRead := st.bytesRead + c
                       bytesWritten := st.bytesWritten + p },
             .dataFormatException)
        | .ok result =>
            let read := resultRead result
            let written := resultWritten result
            let fin := st.finished || resultFinished result
            ({ st with finished := fin
                       pendingOutput := written == len && !fin
                       needDict := st.needDict || resultNeedDict result
                       inputPos := st.inputPos + read
                       bytesWritten := st.bytesWritten + written
                       bytesRead := st.bytesRead + read },
             .ok written)
      | some buf =>
        match native with
        | .dataFormatError c p =>
            ({ st with input := some { buf with position := buf.position + c }
                       bytesRead := st.bytesRead + c
                       bytesWritten := st.bytesWritten + p },
             .dataFormatException)
        | .ok result =>
            let read := resultRead result
            let written := resultWritten result
            let fin := st.finished || resultFinished result
            let buf' := if read > 0 then
                          { buf with position := buf.position + read }
                        else buf
            ({ st with finished := fin
                       pendingOutput := written == len && !fin
                       needDict := st.needDict || resultNeedDict result
                       input := some buf'
                       bytesWritten := st.bytesWritten + written
                       bytesRead := st.bytesRead + read },
             .ok written)
  else
    (st, .indexOutOfBounds)

/-- Embeds inflate(ByteBuffer output).  Returns the updated session
state, the updated output buffer view, and the outcome.  Note that this
variant never assigns the pendingOutput field (unlike the byte-array
variant), and on a DataFormatException it also advances the output
buffer position by outputConsumed before the exception propagates. -/
def Inflater.inflateBufferOut (st : Inflater) (output : ByteBufferView)
    (native : NativeInflate) : Inflater × ByteBufferView × Outcome :=
  if output.isReadOnly then
    (st, output, .readOnlyBufferException)
  else if st.address = 0 then
    (st, output, .illegalStateException)
  else
    let outputPos := output.position
    match st.input with
    | none =>
      match native with
      | .dataFormatError c p =>
          ({ st with inputPos := st.inputPos + c
                     bytesRead := st.bytesRead + c
                     bytesWritten := st.bytesWritten + p },
           { output with position := outputPos + p },
           .dataFormatException)
      | .ok result =>
          let read := resultRead result
          let written := resultWritten result
          ({ st with finished := st.finished || resultFinished result
                     needDict := st.needDict || resultNeedDict result
                     inputPos := st.inputPos + read
                     bytesWritten := st.bytesWritten + written
                     bytesRead := st.bytesRead + read },
           { output with position := outputPos + written },
           .ok written)
    | some buf =>
      match native with
      | .dataFormatError c p =>
          ({ st with input := some { buf with position := buf.position + c }
                     bytesRead := st.bytesRead + c
                     bytesWritten := st.bytesWritten + p },
           { output with position := outputPos + p },
           .dataFormatException)
      | .ok result =>
          let read := resultRead result
          let written := resultWritten result
          ({ st with finished := st.finished || resultFinished result
                     needDict := st.needDict || resultNeedDict result
                     input := some { buf with position := buf.position + read }
                     bytesWritten := st.bytesWritten + written
                     bytesRead := st.bytesRead + read },
           { output with position := outputPos + written },
           .ok written)

/-- Embeds getAdler(): ensureOpen, then the native checksum (supplied as
the adler argument, since the codec is opaque). -/
def Inflater.getAdlerOp (st : Inflater) (adler : Int) :
    Inflater × Outcome :=
  if st.address = 0 then (st, .illegalStateException) else (st, .ok adler)

/-- Embeds getBytesRead(): ensureOpen, then the counter. -/
def Inflater.getBytesRead (st : Inflater) : Inflater × Outcome :=
  if st.address = 0 then (st, .illegalStateException)
  else (st, .ok st.bytesRead)

/-- Embeds getBytesWritten(): ensureOpen, then the counter. -/
def Inflater.getBytesWritten (st : Inflater) : Inflater × Outcome :=
  if st.address = 0 then (st, .illegalStateException)
  else (st, .ok st.bytesWritten)

/-- Embeds reset(): ensureOpen, then the native reset, then input =
defaultBuf, inputArray = null, finished = needDict = false and both
counters zeroed.  The pendingOutput field is not assigned. -/
def Inflater.reset (st : Inflater) : Inflater × Outcome :=
  if st.address = 0 then
    (st, .illegalStateException)
  else
    ({ st with input := some defaultBuf
               inputArray := none
               finished := false
               needDict := false
               bytesRead := 0
               bytesWritten := 0 }, .ok 0)

/-- Embeds end(): if the address is already 0 it returns at once;
otherwise the cleaner runs (zeroing the address and releasing the native
resource) and the input source is cleared to defaultBuf. -/
def Inflater.endSession (st : Inflater) : Inflater :=
  if st.address = 0 then st
  else
    { st with address := 0
              input := some defaultBuf
              inputArray := none }

/-- Embeds close(), which simply calls end(). -/
def Inflater.close (st : Inflater) : Inflater :=
  st.endSession

/-- One public operation on an Inflater, with every external value the
operation consumes (arguments and the opaque native codec response)
packed into the constructor. -/
inductive Op where
  | setInputArray (data : List Int) (off len : Int)
  | setInputBuffer (buf : ByteBufferView)
  | setDictionaryArray (dict : List Int) (off len : Int)
  | setDictionaryBuffer (dict : ByteBufferView)
  | inflateArrayOut (output : List Int) (off len : Int)
      (native : NativeInflate)
  | inflateBufferOut (output : ByteBufferView) (native : NativeInflate)
  | getAdlerOp (adler : Int)
  | getBytesReadOp
  | getBytesWrittenOp
  | resetOp
  | endOp
  | closeOp

/-- State transition of one operation (discarding the outcome and any
caller-side buffer updates). -/
def Inflater.step (st : Inflater) (op : Op) : Inflater :=
  match op with
  | .setInputArray data off len => (st.setInputArray data off len).1
  | .setInputBuffer buf => st.setInputBuffer buf
  | .setDictionaryArray dict off len => (st.setDictionaryArray dict off len).1
  | .setDictionaryBuffer dict => (st.setDictionaryBuffer dict).1
  | .inflateArrayOut output off len native =>
      (st.inflateArrayOut output off len native).1
  | .inflateBufferOut output native => (st.inflateBufferOut output native).1
  | .getAdlerOp adler => (st.getAdlerOp adler).1
  | .getBytesReadOp => st.getBytesRead.1
  | .getBytesWrittenOp => st.getBytesWritten.1
  | .resetOp => st.reset.1
  | .endOp => st.endSession
  | .closeOp => st.close

/-- States reachable from a freshly constructed Inflater (whose native
handle is non-zero) by any sequence of public operations. -/
inductive Reachable : Inflater → Prop where
  | init (addr : Int) (h : addr ≠ 0) : Reachable (Inflater.init addr)
  | step (st : Inflater) (op : Op) : Reachable st → Reachable (st.step op)

/-- Exactly one of the two input-source representations is active: either
the buffer reference is set and the array reference is null, or the
buffer reference is null and the array reference is set. -/
def exactlyOneInput (st : Inflater) : Prop :=
  (st.input.isSome ∧ st.inputArray = none) ∨
  (st.input = none ∧ st.inputArray.isSome)

/-- Relation between a pre-state and a post-state of a decompress call:
the active input source position advanced by exactly c.  For an array
source the window start inputPos advances; for a buffer source the
buffer position advances. -/
def inputAdvancedBy (st st' : Inflater) (c : Int) : Prop :=
  match st.input with
  | none => st'.input = none ∧ st'.inputPos = st.inputPos + c
  | some buf => st'.input = some { buf with position := buf.position + c }

/-- Relation between two Inflater states agreeing on everything that is
not the input source: the three flags and the two counters. -/
def sameOutputState (st st' : Inflater) : Prop :=
  st'.finished = st.finished ∧
  st'.needDict = st.needDict ∧
  st'.pendingOutput = st.pendingOutput ∧
  st'.bytesRead = st.bytesRead ∧
  st'.bytesWritten = st.bytesWritten

/-! ## Theorems -/

/-- Every public operation preserves the exactly-one-active-input-source
invariant. -/
theorem exactlyOneInput_step (st : Inflater) (op : Op)
    (ih : exactlyOneInput st) : exactlyOneInput (st.step op) := by
  cases op with
  | setInputArray data off len =>
      simp only [Inflater.step, Inflater.setInputArray]
      split
      · right; simp [exactlyOneInput]
      · exact ih
  | setInputBuffer buf =>
      left; simp [Inflater.step, Inflater.setInputBuffer]
  | setDictionaryArray dict off len =>
      simp only [Inflater.step, Inflater.setDictionaryArray]
      split
      · split
        · exact ih
        · exact ih
      · exact ih
  | setDictionaryBuffer dict =>
      simp only [Inflater.step, Inflater.setDictionaryBuffer]
      split
      · exact ih
      · exact ih
  | inflateArrayOut output off len native =>
      simp only [Inflater.step, Inflater.inflateArrayOut]
      split
      · split
        · exact ih
        · rcases ih with ⟨h1, h2⟩ | ⟨h1, h2⟩
          · obtain ⟨buf, hbuf⟩ := Option.isSome_iff_exists.mp h1
            cases native <;> simp [hbuf, exactlyOneInput, h2]
          · cases native <;> simp [h1, exactlyOneInput, h2]
      · exact ih
  | inflateBufferOut output native =>
      simp only [Inflater.step, Inflater.inflateBufferOut]
      split
      · exact ih
      · split
        · exact ih
        · rcases ih with ⟨h1, h2⟩ | ⟨h1, h2⟩
          · obtain ⟨buf, hbuf⟩ := Option.isSome_iff_exists.mp h1
            cases native <;> simp [hbuf, exactlyOneInput, h2]
          · cases native <;> simp [h1, exactlyOneInput, h2]
  | getAdlerOp adler =>
      simp only [Inflater.step, Inflater.getAdlerOp]
      split
      · exact ih
      · exact ih
  | getBytesReadOp =>
      simp only [Inflater.step, Inflater.getBytesRead]
      split
      · exact ih
      · exact ih
  | getBytesWrittenOp =>
      simp only [Inflater.step, Inflater.getBytesWritten]
      split
      · exact ih
      · exact ih
  | resetOp =>
      simp only [Inflater.step, Inflater.reset]
      split
      · exact ih
      · left; simp [exactlyOneInput]
  | endOp =>
      simp only [Inflater.step, Inflater.endSession]
      split
      · exact ih
      · left; simp [exactlyOneInput]
  | closeOp =>
      simp only [Inflater.step, Inflater.close, Inflater.endSession]
      split
      · exact ih
      · left; simp [exactlyOneInput]

/-- C7: for all non-negative s, d, e, a PauseInterval constructed from
(s, d, e) satisfies pause_end_time = s + d, preceding_nongc_duration =
s - e and total_duration = (s - e) + d. -/
theorem pause_interval_derived_values {R : Type} [LinearOrderedField R]
    (s d e : R) (hs : 0 ≤ s) (hd : 0 ≤ d) (he : 0 ≤ e) :
    ∃ g : GcPauseTimeInfo R,
      GcPauseTimeInfo.construct s d e = some g ∧
      g.pause_end_time = s + d ∧
      g.preceding_nongc_duration = s - e ∧
      g.total_duration = (s - e) + d := by
  refine ⟨⟨s, d, e⟩, ?_, rfl, rfl, rfl⟩
  simp [GcPauseTimeInfo.construct, hs, hd, he]

/-- Witness for C7 at the concrete rational input (3, 2, 1). -/
theorem pause_interval_derived_values_witness :
    ((0:ℚ) ≤ 3 ∧ (0:ℚ) ≤ 2 ∧ (0:ℚ) ≤ 1) ∧
    ∃ g : GcPauseTimeInfo ℚ,
      GcPauseTimeInfo.construct (3:ℚ) 2 1 = some g ∧
      g.pause_end_time = 3 + 2 ∧
      g.preceding_nongc_duration = 3 - 1 ∧
      g.total_duration = (3 - 1) + 2 :=
  ⟨⟨by decide, by decide, by decide⟩,
   pause_interval_derived_values 3 2 1 (by decide) (by decide) (by decide)⟩

/-- C8: constructing a PauseInterval with any negative argument fires the
precondition assert, so no object is produced. -/
theorem pause_interval_negative_construct_fails {R : Type}
    [LinearOrderedField R] (s d e : R) (h : s < 0 ∨ d < 0 ∨ e < 0) :
    GcPauseTimeInfo.construct s d e = none := by
  unfold GcPauseTimeInfo.construct
  rw [if_neg]
  rintro ⟨h1, h2, h3⟩
  rcases h with h | h | h
  · exact absurd h1 (not_le.mpr h)
  · exact absurd h2 (not_le.mpr h)
  · exact absurd h3 (not_le.mpr h)

/-- Witness for C8 at the concrete rational input (-1, 0, 0). -/
theorem pause_interval_negative_construct_fails_witness :
    ((-1:ℚ) < 0 ∨ (0:ℚ) < 0 ∨ (0:ℚ) < 0) ∧
    GcPauseTimeInfo.construct (-1:ℚ) 0 0 = none :=
  ⟨Or.inl (by decide),
   pause_interval_negative_construct_fails (-1:ℚ) 0 0 (Or.inl (by decide))⟩

/-- C9: each setter stores its value without validation, the matching
getter then returns that value, the other two fields are unchanged, and
in consequence preceding_nongc_duration can become negative after
mutation of a validly constructed object. -/
theorem pause_interval_setters_unvalidated {R : Type}
    [LinearOrderedField R] (g : GcPauseTimeInfo R) (v : R) :
    ((g.set_start_time v).start_time = v ∧
     (g.set_start_time v).duration = g.duration ∧
     (g.set_start_time v).end_of_last_pause = g.end_of_last_pause) ∧
    ((g.set_duration v).duration = v ∧
     (g.set_duration v).start_time = g.start_time ∧
     (g.set_duration v).end_of_last_pause = g.end_of_last_pause) ∧
    ((g.set_end_of_last_pause v).end_of_last_pause = v ∧
     (g.set_end_of_last_pause v).start_time = g.start_time ∧
     (g.set_end_of_last_pause v).duration = g.duration) ∧
    ∃ g0 : GcPauseTimeInfo R, ∃ w : R,
      GcPauseTimeInfo.construct (0:R) 0 0 = some g0 ∧
      (g0.set_end_of_last_pause w).preceding_nongc_duration < 0 := by
  refine ⟨⟨rfl, rfl, rfl⟩, ⟨rfl, rfl, rfl⟩, ⟨rfl, rfl, rfl⟩,
    ⟨⟨0, 0, 0⟩, 1, ?_, ?_⟩⟩
  · simp [GcPauseTimeInfo.construct]
  · simp [GcPauseTimeInfo.set_end_of_last_pause,
          GcPauseTimeInfo.preceding_nongc_duration]

/-- C4: reset on an open session returns normally, zeroes both counters
(so the subsequent getters return 0), clears finished and needDict,
discards the input source (defaultBuf, empty array window) so that
needsInput is true afterwards; reset on a closed session fails with
IllegalStateException and leaves the state unchanged. -/
theorem reset_semantics (st : Inflater) :
    (st.address ≠ 0 →
       st.reset.2 = Outcome.ok 0 ∧
       st.reset.1.bytesRead = 0 ∧
       st.reset.1.bytesWritten = 0 ∧
       st.reset.1.getBytesRead.2 = Outcome.ok 0 ∧
       st.reset.1.getBytesWritten.2 = Outcome.ok 0 ∧
       st.reset.1.finished = false ∧
       st.reset.1.needDict = false ∧
       st.reset.1.input = some defaultBuf ∧
       st.reset.1.inputArray = none ∧
       st.reset.1.needsInput = true) ∧
    (st.address = 0 →
       st.reset.1 = st ∧ st.reset.2 = Outcome.illegalStateException) := by
  constructor
  · intro h
    simp [Inflater.reset, Inflater.getBytesRead, Inflater.getBytesWritten, h,
          Inflater.needsInput, defaultBuf, ByteBufferView.hasRemaining]
  · intro h
    simp [Inflater.reset, h]

/-- Witness for C4: an open session with nonzero counters and flags set,
and the same session after end(). -/
theorem reset_semantics_witness :
    (let stW : Inflater :=
       { address := 1, input := none, inputArray := some [1, 2, 3],
         inputPos := 1, inputLim := 3, finished := true,
         pendingOutput := true, needDict := true,
         bytesRead := 7, bytesWritten := 9 }
     stW.reset.2 = Outcome.ok 0 ∧
     stW.reset.1.bytesRead = 0 ∧
     stW.reset.1.bytesWritten = 0 ∧
     stW.reset.1.getBytesRead.2 = Outcome.ok 0 ∧
     stW.reset.1.getBytesWritten.2 = Outcome.ok 0 ∧
     stW.reset.1.finished = false ∧
     stW.reset.1.needDict = false ∧
     stW.reset.1.input = some defaultBuf ∧
     stW.reset.1.inputArray = none ∧
     stW.reset.1.needsInput = true) ∧
    (let stC := (Inflater.init 1).endSession
     stC.reset.1 = stC ∧ stC.reset.2 = Outcome.illegalStateException) :=
  ⟨(reset_semantics _).1 (by decide), (reset_semantics _).2 (by decide)⟩

/-- C10: reset on an open session does not assign the pendingOutput
field, so hasPendingOutput afterwards returns exactly what it returned
before, even though finished, needDict, the counters and the input
source are all cleared. -/
theorem reset_preserves_pendingOutput (st : Inflater)
    (h : st.address ≠ 0) :
    st.reset.1.hasPendingOutput = st.hasPendingOutput ∧
    st.reset.1.finished = false ∧
    st.reset.1.needDict = false ∧
    st.reset.1.bytesRead = 0 ∧
    st.reset.1.bytesWritten = 0 ∧
    st.reset.1.input = some defaultBuf ∧
    st.reset.1.inputArray = none := by
  simp [Inflater.reset, h, Inflater.hasPendingOutput]

/-- Witness for C10: an open session whose pendingOutput flag is set. -/
theorem reset_preserves_pendingOutput_witness :
    (let stW : Inflater := { Inflater.init 1 with pendingOutput := true }
     stW.reset.1.hasPendingOutput = stW.hasPendingOutput ∧
     stW.reset.1.finished = false ∧
     stW.reset.1.needDict = false ∧
     stW.reset.1.bytesRead = 0 ∧
     stW.reset.1.bytesWritten = 0 ∧
     stW.reset.1.input = some defaultBuf ∧
     stW.reset.1.inputArray = none) :=
  reset_preserves_pendingOutput _ (by decide)

/-- C2 counterexample: on a session that has been ended, setInput does
not fail with IllegalStateException as the claim requires; it returns
normally and installs the new input source. -/
theorem setInput_after_end_counterexample :
    (((Inflater.init 1).endSession).setInputArray [7] 0 1).2 =
      Outcome.ok 0 ∧
    (((Inflater.init 1).endSession).setInputArray [7] 0 1).2 ≠
      Outcome.illegalStateException ∧
    (((Inflater.init 1).endSession).setInputArray [7] 0 1).1.inputArray =
      some [7] ∧
    (((Inflater.init 1).endSession).setInputBuffer
      { position := 0, limit := 4, isReadOnly := false }).input =
      some { position := 0, limit := 4, isReadOnly := false } := by
  decide

/-- C2 amended: end()/close() is an idempotent no-op on a closed session;
after end(), setDictionary, inflate (both variants), getAdler,
getBytesRead, getBytesWritten and reset fail with IllegalStateException
without mutating the state, but setInput performs no open-state check
and succeeds, installing its input source. -/
theorem end_teardown_semantics (st : Inflater) (h : st.address = 0) :
    (∀ st2 : Inflater,
       st2.endSession.endSession = st2.endSession ∧
       st2.endSession.address = 0 ∧
       st2.close = st2.endSession) ∧
    (∀ (dict : List Int) (off len : Int),
       fromIndexSizeOk off len (List.length dict) = true →
       st.setDictionaryArray dict off len = (st, .illegalStateException)) ∧
    (∀ dict : ByteBufferView,
       st.setDictionaryBuffer dict = (st, dict, .illegalStateException)) ∧
    (∀ (output : List Int) (off len : Int) (native : NativeInflate),
       fromIndexSizeOk off len (List.length output) = true →
       st.inflateArrayOut output off len native =
         (st, .illegalStateException)) ∧
    (∀ (output : ByteBufferView) (native : NativeInflate),
       output.isReadOnly = false →
       st.inflateBufferOut output native =
         (st, output, .illegalStateException)) ∧
    (∀ adler : Int, st.getAdlerOp adler = (st, .illegalStateException)) ∧
    st.getBytesRead = (st, .illegalStateException) ∧
    st.getBytesWritten = (st, .illegalStateException) ∧
    st.reset = (st, .illegalStateException) ∧
    (∀ (data : List Int) (off len : Int),
       fromIndexSizeOk off len (List.length data) = true →
       (st.setInputArray data off len).2 = Outcome.ok 0) ∧
    (∀ buf : ByteBufferView,
       st.setInputBuffer buf =
         { st with input := some buf, inputArray := none }) := by
  refine ⟨?_, ?_, ?_, ?_, ?_, ?_, ?_, ?_, ?_, ?_, ?_⟩
  · intro st2
    by_cases h2 : st2.address = 0 <;>
      simp [Inflater.endSession, Inflater.close, h2]
  · intro dict off len hok
    simp [Inflater.setDictionaryArray, hok, h]
  · intro dict
    simp [Inflater.setDictionaryBuffer, h]
  · intro output off len native hok
    simp [Inflater.inflateArrayOut, hok, h]
  · intro output native hro
    simp [Inflater.inflateBufferOut, hro, h]
  · intro adler
    simp [Inflater.getAdlerOp, h]
  · simp [Inflater.getBytesRead, h]
  · simp [Inflater.getBytesWritten, h]
  · simp [Inflater.reset, h]
  · intro data off len hok
    simp [Inflater.setInputArray, hok]
  · intro buf
    simp [Inflater.setInputBuffer]

/-- Witness for amended C2 at a concrete closed session. -/
theorem end_teardown_semantics_witness :
    ((Inflater.init 1).endSession.endSession =
       (Inflater.init 1).endSession) ∧
    (((Inflater.init 1).endSession).setDictionaryArray [1] 0 1 =
       ((Inflater.init 1).endSession, .illegalStateException)) ∧
    (((Inflater.init 1).endSession).inflateArrayOut [0, 0] 0 2 (.ok 0) =
       ((Inflater.init 1).endSession, .illegalStateException)) ∧
    (((Inflater.init 1).endSession).reset =
       ((Inflater.init 1).endSession, .illegalStateException)) ∧
    ((((Inflater.init 1).endSession).setInputArray [7] 0 1).2 =
       Outcome.ok 0) := by
  have h := end_teardown_semantics ((Inflater.init 1).endSession) (by decide)
  exact ⟨(h.1 (Inflater.init 1)).1,
         h.2.1 [1] 0 1 (by decide),
         h.2.2.2.1 [0, 0] 0 2 (.ok 0) (by decide),
         h.2.2.2.2.2.2.2.2.1,
         h.2.2.2.2.2.2.2.2.2.1 [7] 0 1 (by decide)⟩

/-- C3 counterexample: a first byte-array inflate call fills the whole
requested output (2 of 2 bytes, stream not finished), setting
pendingOutput; a second, successful ByteBuffer-output inflate call then
produces 0 of the 4 requested bytes with the stream still unfinished, so
under the claim pendingOutput would have to be cleared, yet it is still
true: the ByteBuffer-output variant never assigns the flag. -/
theorem inflate_buffer_pendingOutput_counterexample :
    ((((Inflater.init 1).inflateArrayOut [0, 0] 0 2
         (.ok 4294967296)).1.inflateBufferOut
         { position := 0, limit := 4, isReadOnly := false }
         (.ok 0)).2.2 = Outcome.ok 0) ∧
    ((((Inflater.init 1).inflateArrayOut [0, 0] 0 2
         (.ok 4294967296)).1.inflateBufferOut
         { position := 0, limit := 4, isReadOnly := false }
         (.ok 0)).1.finished = false) ∧
    ((((Inflater.init 1).inflateArrayOut [0, 0] 0 2
         (.ok 4294967296)).1.inflateBufferOut
         { position := 0, limit := 4, isReadOnly := false }
         (.ok 0)).1.hasPendingOutput = true) := by
  decide

/-- C3 amended: after every successful byte-array-output inflate call,
pendingOutput is true iff the call wrote exactly the requested output
length and the stream is not finished; the ByteBuffer-output variant
never assigns the flag, so every such call (successful or not) leaves
hasPendingOutput unchanged. -/
theorem pendingOutput_semantics (st : Inflater) (h : st.address ≠ 0) :
    (∀ (output : List Int) (off len : Int) (result : Nat),
       fromIndexSizeOk off len (List.length output) = true →
       (st.inflateArrayOut output off len (.ok result)).2 =
         Outcome.ok (resultWritten result) ∧
       (st.inflateArrayOut output off len (.ok result)).1.pendingOutput =
         ((resultWritten result == len) &&
          !(st.inflateArrayOut output off len (.ok result)).1.finished)) ∧
    (∀ (output : ByteBufferView) (native : NativeInflate),
       (st.inflateBufferOut output native).1.hasPendingOutput =
         st.hasPendingOutput) := by
  constructor
  · intro output off len result hok
    cases hin : st.input <;>
      simp [Inflater.inflateArrayOut, hok, h, hin]
  · intro output native
    unfold Inflater.inflateBufferOut Inflater.hasPendingOutput
    cases hin : st.input <;> cases native <;>
      by_cases hro : output.isReadOnly <;>
      simp [hro, h, hin]

/-- Witness for amended C3 at a concrete open session: an array-output
call that fills the requested 2 bytes, and a buffer-output call. -/
theorem pendingOutput_semantics_witness :
    (((Inflater.init 1).inflateArrayOut [0, 0] 0 2 (.ok 4294967296)).2 =
       Outcome.ok (resultWritten 4294967296) ∧
     ((Inflater.init 1).inflateArrayOut [0, 0] 0 2
        (.ok 4294967296)).1.pendingOutput =
       ((resultWritten 4294967296 == 2) &&
        !((Inflater.init 1).inflateArrayOut [0, 0] 0 2
            (.ok 4294967296)).1.finished)) ∧
    (((Inflater.init 1).inflateBufferOut
        { position := 0, limit := 4, isReadOnly := false }
        (.ok 0)).1.hasPendingOutput = (Inflater.init 1).hasPendingOutput) :=
  ⟨(pendingOutput_semantics (Inflater.init 1) (by decide)).1
     [0, 0] 0 2 4294967296 (by decide),
   (pendingOutput_semantics (Inflater.init 1) (by decide)).2
     { position := 0, limit := 4, isReadOnly := false } (.ok 0)⟩

/-- C1: when the native codec reports a data-format error mid-call with
out-parameters inputConsumed = c and outputConsumed = p, both inflate
variants commit the partial progress before the exception propagates:
the active input source position (array window start, or buffer
position) advances by c, bytesRead grows by c and bytesWritten grows by
p, and the outcome is the DataFormatException.  This covers both input
representations via inputAdvancedBy. -/
theorem inflate_error_commits_progress (st : Inflater)
    (h : st.address ≠ 0) (c p : Int) :
    (∀ (output : List Int) (off len : Int),
       fromIndexSizeOk off len (List.length output) = true →
       (st.inflateArrayOut output off len (.dataFormatError c p)).2 =
         Outcome.dataFormatException ∧
       inputAdvancedBy st
         (st.inflateArrayOut output off len (.dataFormatError c p)).1 c ∧
       (st.inflateArrayOut output off len
          (.dataFormatError c p)).1.bytesRead = st.bytesRead + c ∧
       (st.inflateArrayOut output off len
          (.dataFormatError c p)).1.bytesWritten = st.bytesWritten + p) ∧
    (∀ output : ByteBufferView, output.isReadOnly = false →
       (st.inflateBufferOut output (.dataFormatError c p)).2.2 =
         Outcome.dataFormatException ∧
       inputAdvancedBy st
         (st.inflateBufferOut output (.dataFormatError c p)).1 c ∧
       (st.inflateBufferOut output
          (.dataFormatError c p)).1.bytesRead = st.bytesRead + c ∧
       (st.inflateBufferOut output
          (.dataFormatError c p)).1.bytesWritten = st.bytesWritten + p) := by
  constructor
  · intro output off len hok
    cases hin : st.input <;>
      simp [Inflater.inflateArrayOut, hok, h, hin, inputAdvancedBy]
  · intro output hro
    cases hin : st.input <;>
      simp [Inflater.inflateBufferOut, hro, h, hin, inputAdvancedBy]

/-- Witness for C1: an open session with an array input window at
position 1 of 3, hit by a data-format error after consuming 2 input
bytes and producing 1 output byte, through both inflate variants. -/
theorem inflate_error_commits_progress_witness :
    (let stW : Inflater :=
       { address := 1, input := none, inputArray := some [9, 9, 9],
         inputPos := 1, inputLim := 3, finished := false,
         pendingOutput := false, needDict := false,
         bytesRead := 10, bytesWritten := 20 }
     ((stW.inflateArrayOut [0, 0] 0 2 (.dataFormatError 2 1)).2 =
        Outcome.dataFormatException ∧
      inputAdvancedBy stW
        (stW.inflateArrayOut [0, 0] 0 2 (.dataFormatError 2 1)).1 2 ∧
      (stW.inflateArrayOut [0, 0] 0 2
         (.dataFormatError 2 1)).1.bytesRead = stW.bytesRead + 2 ∧
      (stW.inflateArrayOut [0, 0] 0 2
         (.dataFormatError 2 1)).1.bytesWritten = stW.bytesWritten + 1) ∧
     ((stW.inflateBufferOut { position := 0, limit := 4, isReadOnly := false }
         (.dataFormatError 2 1)).2.2 = Outcome.dataFormatException ∧
      inputAdvancedBy stW
        (stW.inflateBufferOut { position := 0, limit := 4, isReadOnly := false }
           (.dataFormatError 2 1)).1 2 ∧
      (stW.inflateBufferOut { position := 0, limit := 4, isReadOnly := false }
         (.dataFormatError 2 1)).1.bytesRead = stW.bytesRead + 2 ∧
      (stW.inflateBufferOut { position := 0, limit := 4, isReadOnly := false }
         (.dataFormatError 2 1)).1.bytesWritten = stW.bytesWritten + 1)) :=
  ⟨(inflate_error_commits_progress _ (by decide) 2 1).1 [0, 0] 0 2
     (by decide),
   (inflate_error_commits_progress _ (by decide) 2 1).2
     { position := 0, limit := 4, isReadOnly := false } (by decide)⟩

/-- C5: in every reachable session state exactly one input-source view
is active; each setInput variant makes its own representation the active
one and clears the other (a failing bounds check leaves the state
unchanged, which also preserves the invariant); and neither setInput
variant touches the finished, needDict or pendingOutput flags or the
byte counters. -/
theorem input_source_exclusive :
    (∀ st : Inflater, Reachable st → exactlyOneInput st) ∧
    (∀ (st : Inflater) (data : List Int) (off len : Int),
       fromIndexSizeOk off len (List.length data) = true →
       (st.setInputArray data off len).1.input = none ∧
       (st.setInputArray data off len).1.inputArray = some data ∧
       (st.setInputArray data off len).1.inputPos = off ∧
       (st.setInputArray data off len).1.inputLim = off + len) ∧
    (∀ (st : Inflater) (buf : ByteBufferView),
       (st.setInputBuffer buf).input = some buf ∧
       (st.setInputBuffer buf).inputArray = none) ∧
    (∀ (st : Inflater) (data : List Int) (off len : Int),
       sameOutputState st (st.setInputArray data off len).1) ∧
    (∀ (st : Inflater) (buf : ByteBufferView),
       sameOutputState st (st.setInputBuffer buf)) := by
  refine ⟨?_, ?_, ?_, ?_, ?_⟩
  · intro st h
    induction h with
    | init addr ha => left; simp [Inflater.init, exactlyOneInput]
    | step st op hst ih => exact exactlyOneInput_step st op ih
  · intro st data off len hok
    simp [Inflater.setInputArray, hok]
  · intro st buf
    simp [Inflater.setInputBuffer]
  · intro st data off len
    simp only [Inflater.setInputArray]
    split <;> simp [sameOutputState]
  · intro st buf
    simp [Inflater.setInputBuffer, sameOutputState]

/-- Witness for C5 at a freshly constructed session and one concrete
setInput call. -/
theorem input_source_exclusive_witness :
    exactlyOneInput (Inflater.init 1) ∧
    (((Inflater.init 1).setInputArray [5, 6] 0 2).1.input = none ∧
     ((Inflater.init 1).setInputArray [5, 6] 0 2).1.inputArray =
       some [5, 6] ∧
     ((Inflater.init 1).setInputArray [5, 6] 0 2).1.inputPos = 0 ∧
     ((Inflater.init 1).setInputArray [5, 6] 0 2).1.inputLim = 0 + 2) ∧
    sameOutputState (Inflater.init 1)
      ((Inflater.init 1).setInputArray [5, 6] 0 2).1 :=
  ⟨input_source_exclusive.1 _ (Reachable.init 1 (by decide)),
   input_source_exclusive.2.1 (Inflater.init 1) [5, 6] 0 2 (by decide),
   input_source_exclusive.2.2.2.1 (Inflater.init 1) [5, 6] 0 2⟩

/-- C6: in every reachable session state, needsInput() is true exactly
when getRemaining() is 0, for either input representation; and a freshly
constructed session (before any setInput) already has needsInput true. -/
theorem needsInput_iff_no_remaining :
    (∀ st : Inflater, Reachable st →
       (st.needsInput = true ↔ st.getRemaining = 0)) ∧
    (∀ addr : Int, addr ≠ 0 → (Inflater.init addr).needsInput = true) := by
  constructor
  · intro st _
    cases hin : st.input with
    | none =>
        simp only [Inflater.needsInput, Inflater.getRemaining, hin,
                   beq_iff_eq]
        omega
    | some b =>
        simp only [Inflater.needsInput, Inflater.getRemaining, hin,
                   ByteBufferView.hasRemaining, ByteBufferView.remaining,
                   Bool.not_eq_true', decide_eq_false_iff_not]
        omega
  · intro addr _
    simp [Inflater.init, Inflater.needsInput, defaultBuf,
          ByteBufferView.hasRemaining]

/-- Witness for C6 at a freshly constructed session. -/
theorem needsInput_iff_no_remaining_witness :
    ((Inflater.init 1).needsInput = true ↔
       (Inflater.init 1).getRemaining = 0) ∧
    (Inflater.init 1).needsInput = true :=
  ⟨needsInput_iff_no_remaining.1 _ (Reachable.init 1 (by decide)),
   needsInput_iff_no_remaining.2 1 (by decide)⟩

end JdkSpec
